import Mathlib

/-!
# Verification of the Aegis LSP document-analysis core

Shallow embedding of `src/src/main.rs` (crate `aegis_lsp`): the symbol
extraction walk over the JSON program tree, the error-message locator, the
document-validation pass, the change handler and the completion provider.
Rust panics are modelled by `Option.none`; the external compiler and loader
are parameters of the validation pass.
-/

namespace Aegis

/-- `serde_json::Value`: the generic JSON tree the external compiler returns.
Numbers are never inspected by this core beyond type tests, so their exact
numeric type is irrelevant; we carry an `Int`. -/
inductive Value where
  | null : Value
  | bool : Bool → Value
  | num : Int → Value
  | str : String → Value
  | arr : List Value → Value
  | obj : List (String × Value) → Value
deriving Repr

/-- `Value::as_str`: `Some` exactly on JSON strings. -/
def asStr : Value → Option String
  | Value.str s => some s
  | _ => none

/-- `Value::is_string`. -/
def isStringV : Value → Bool
  | Value.str _ => true
  | _ => false

/-- `lsp_types::CompletionItemKind` (the variants this server uses). -/
inductive CompletionItemKind where
  | KEYWORD | VARIABLE | FUNCTION | CLASS | MODULE
deriving Repr, DecidableEq

/-- `lsp_types::InsertTextFormat` (the variants this server uses). -/
inductive InsertTextFormat where
  | PLAIN_TEXT | SNIPPET
deriving Repr, DecidableEq

/-- `lsp_types::CompletionItem`, restricted to the fields this server sets;
all other fields stay at `..Default::default()` and never vary. -/
structure CompletionItem where
  label : String
  kind : Option CompletionItemKind := none
  detail : Option String := none
  insert_text : Option String := none
  insert_text_format : Option InsertTextFormat := none
deriving Repr, DecidableEq

/-- The `CompletionItem` pushed for a `set` instruction (main.rs lines 178-183). -/
def variable_item (name : String) : CompletionItem :=
  { label := name, kind := some CompletionItemKind.VARIABLE,
    detail := some "Variable" }

/-- The `CompletionItem` pushed for a `function` instruction (main.rs lines 189-196). -/
def function_item (name : String) : CompletionItem :=
  { label := name, kind := some CompletionItemKind.FUNCTION,
    detail := some "Function",
    insert_text := some (name ++ "($0)"),
    insert_text_format := some InsertTextFormat.SNIPPET }

/-- The `CompletionItem` pushed for a `class` instruction (main.rs lines 206-211). -/
def class_item (name : String) : CompletionItem :=
  { label := name, kind := some CompletionItemKind.CLASS,
    detail := some "Class" }

/-- The `CompletionItem` pushed for a `namespace` instruction (main.rs lines 217-222). -/
def namespace_item (name : String) : CompletionItem :=
  { label := name, kind := some CompletionItemKind.MODULE,
    detail := some "Namespace" }

/-- `arr.get(2).and_then(|v| v.as_str())` on a node `t :: args`:
index 2 of the full node is index 1 of `args`. -/
def name_arg (args : List Value) : Option String :=
  (args.get? 1).bind asStr

/-- The symbols the `set` arm pushes: one Variable item when the name argument
is a string, nothing otherwise. -/
def set_items (args : List Value) : List CompletionItem :=
  match name_arg args with
  | some name => [variable_item name]
  | none => []

/-- The symbols the `function` arm pushes before recursing into the body. -/
def function_items (args : List Value) : List CompletionItem :=
  match name_arg args with
  | some name => [function_item name]
  | none => []

/-- The symbols the `class` arm pushes. -/
def class_items (args : List Value) : List CompletionItem :=
  match name_arg args with
  | some name => [class_item name]
  | none => []

/-- The symbols the `namespace` arm pushes before recursing into the body. -/
def namespace_items (args : List Value) : List CompletionItem :=
  match name_arg args with
  | some name => [namespace_item name]
  | none => []

mutual

/-- `Backend::extract_symbols` (main.rs lines 148-165). Returns `none` when the
Rust code would panic, `some symbols` otherwise. -/
def extract_symbols : Value → Option (List CompletionItem)
  | Value.arr elems =>
    match elems with
    | [] => some []
    | e :: rest =>
      if isStringV e then analyze_instruction (e :: rest)
      else extract_list (e :: rest)
  | _ => some []

/-- The `for item in arr { symbols.extend(self.extract_symbols(item)) }` loop of
`extract_symbols`, also used for the `&arr[2..]` loop of `analyze_instruction`:
walks each element in order and concatenates, propagating a panic. -/
def extract_list : List Value → Option (List CompletionItem)
  | [] => some []
  | e :: rest => do
    let s ← extract_symbols e
    let t ← extract_list rest
    some (s ++ t)

/-- `Backend::analyze_instruction` (main.rs lines 167-240). The node is
`t :: args`; `cmd` is `arr[0].as_str().unwrap_or("")`. The `if | while |
for_range` arm iterates `&arr[2..]`, which panics (`none`) when the node has
fewer than two elements. -/
def analyze_instruction : List Value → Option (List CompletionItem)
  | [] => some []
  | t :: args =>
    let cmd := (asStr t).getD ""
    if cmd = "set" then
      some (set_items args)
    else if cmd = "function" then
      match args with
      | _l :: _n :: _p :: _r :: b :: _rest =>
        (extract_symbols b).map (fun bs => function_items args ++ bs)
      | _ => some (function_items args)
    else if cmd = "class" then
      some (class_items args)
    else if cmd = "namespace" then
      match args with
      | _l :: _n :: b :: _rest =>
        (extract_symbols b).map (fun bs => namespace_items args ++ bs)
      | _ => some (namespace_items args)
    else if cmd = "if" ∨ cmd = "while" ∨ cmd = "for_range" then
      match args with
      | [] => none
      | _x :: rest => extract_list rest
    else
      some []

end

/-- `str::find(pattern)` for a string pattern: index of the first occurrence
of `needle` as a contiguous sublist, `none` if absent. Indices are character
positions; Rust returns byte positions, but both markers and both closing
delimiters are ASCII, so every offset this code computes agrees. -/
def strFind : List Char → List Char → Option Nat
  | [], needle => if needle.isEmpty then some 0 else none
  | h :: t, needle =>
    if needle.isPrefixOf (h :: t) then some 0
    else (strFind t needle).map (· + 1)

/-- `str::find(char)`: index of the first occurrence of a character. -/
def charFind : List Char → Char → Option Nat
  | [], _ => none
  | h :: t, c => if h = c then some 0 else (charFind t c).map (· + 1)

/-- `num_str.parse::<u32>()`: optional leading `+` sign, then one or more
ASCII digits, value at most `u32::MAX`; anything else is a parse error. -/
def parseU32 (s : List Char) : Option Nat :=
  let digits := match s with
    | '+' :: rest => rest
    | _ => s
  if digits.isEmpty then none
  else if digits.all Char.isDigit then
    let n := digits.foldl (fun acc c => acc * 10 + (c.toNat - 48)) 0
    if n < 2 ^ 32 then some n else none
  else none

/-- The `line_num` computation of `Backend::parse_error_message` (main.rs lines
115-134): look for `"(Line "` and the first `')'` at or after it, else for
`"[Ligne "` and the first `']'`; parse the enclosed text as `u32` and subtract
one, saturating; every failure leaves the initial value 0.
In the slice `msg[start + 6 .. start + end]`, `end ≥ 6` always holds because
the six characters of `"(Line "` themselves are not `')'`, so the `Nat`
subtraction `e - 6` is exact (likewise `e - 7` for `"[Ligne "`). -/
def line_num_of (msg : String) : Nat :=
  let cs := msg.toList
  match strFind cs ("(Line ".toList) with
  | some start =>
    match charFind (cs.drop start) ')' with
    | some e =>
      let num_str := (cs.drop (start + 6)).take (e - 6)
      match parseU32 num_str with
      | some n => n - 1
      | none => 0
    | none => 0
  | none =>
    match strFind cs ("[Ligne ".toList) with
    | some start =>
      match charFind (cs.drop start) ']' with
      | some e =>
        let num_str := (cs.drop (start + 7)).take (e - 7)
        match parseU32 num_str with
        | some n => n - 1
        | none => 0
      | none => 0
    | none => 0

/-- Text strictly between the first occurrence of `marker` and the first
`close` delimiter after it; `none` when the marker or its closing delimiter is
absent. Helper for `locator_spec`. -/
def enclosed_by (cs marker : List Char) (close : Char) : Option (List Char) :=
  match strFind cs marker with
  | none => none
  | some i =>
    let after := cs.drop (i + marker.length)
    match charFind after close with
    | none => none
    | some j => some (after.take j)

/-- The error-locator algorithm as the specification words it (spec section
4.1, claim C5): scan for the marker `"(Line "` closed by `')'`, else
`"[Ligne "` closed by `']'`, in that priority order; parse the enclosed
substring as an unsigned integer and return it minus one, saturating at 0;
return 0 when no marker is found, the closing delimiter is missing, or the
enclosed text is not a valid unsigned integer. Stated from the spec words to
be compared with the code embedding `line_num_of`. -/
def locator_spec (msg : String) : Nat :=
  let cs := msg.toList
  if (strFind cs ("(Line ".toList)).isSome then
    match enclosed_by cs ("(Line ".toList) ')' with
    | some t =>
      match parseU32 t with
      | some n => n - 1
      | none => 0
    | none => 0
  else if (strFind cs ("[Ligne ".toList)).isSome then
    match enclosed_by cs ("[Ligne ".toList) ']' with
    | some t =>
      match parseU32 t with
      | some n => n - 1
      | none => 0
    | none => 0
  else 0

/-- `lsp_types::Position`. -/
structure Position where
  line : Nat
  character : Nat
deriving Repr, DecidableEq

/-- `lsp_types::Range`; the field `end` is renamed `endPos` (Lean keyword). -/
structure Range where
  start : Position
  endPos : Position
deriving Repr, DecidableEq

/-- `lsp_types::DiagnosticSeverity`. -/
inductive DiagnosticSeverity where
  | ERROR | WARNING | INFORMATION | HINT
deriving Repr, DecidableEq

/-- `lsp_types::Diagnostic`, restricted to the fields this server sets. -/
structure Diagnostic where
  range : Range
  severity : Option DiagnosticSeverity := none
  source : Option String := none
  message : String
deriving Repr, DecidableEq

/-- `Backend::parse_error_message` (main.rs lines 112-146). -/
def parse_error_message (msg : String) : Diagnostic :=
  let line_num := line_num_of msg
  { range := { start := { line := line_num, character := 0 },
               endPos := { line := line_num, character := 100 } },
    severity := some DiagnosticSeverity.ERROR,
    source := some "Aegis Compiler",
    message := msg }

/-- `Backend::validate_document` (main.rs lines 85-109), parameterised by the
results of the external collaborators: `compileRes` is what
`compiler::compile(&text)` returned for this pass, and `loadRes ast` is
`loader::parse_block(&ast)` read as `some errorString` on `Err`. Input
`symbols` is the `RwLock` content before the pass; the result is
`some (newSymbols, publishedDiagnostics)` — the lock content after the pass and
the single `publish_diagnostics` payload — or `none` when the pass panics
inside `extract_symbols`, in which case nothing is written and nothing is
published. -/
def validate_document (compileRes : Except String Value)
    (loadRes : Value → Option String) (symbols : List CompletionItem) :
    Option (List CompletionItem × List Diagnostic) :=
  match compileRes with
  | Except.error e => some (symbols, [parse_error_message e])
  | Except.ok json_ast =>
    match extract_symbols json_ast with
    | none => none
    | some found_symbols =>
      let diagnostics := match loadRes json_ast with
        | some e => [parse_error_message e]
        | none => []
      some (found_symbols, diagnostics)

/-- One entry of `DidChangeTextDocumentParams::content_changes`; under FULL
sync `text` is the whole document. -/
structure TextDocumentContentChangeEvent where
  text : String
deriving Repr, DecidableEq

/-- `Backend::did_change` (main.rs lines 44-49): the list of document texts on
which it invokes `validate_document`, i.e. the analysis passes it triggers.
`content_changes.into_iter().next()` takes the first change when one exists. -/
def did_change_texts (content_changes : List TextDocumentContentChangeEvent) :
    List String :=
  match content_changes with
  | [] => []
  | change :: _ => [change.text]

/-- The fixed keyword vocabulary of `Backend::completion` (main.rs lines 54-58). -/
def keywords : List String :=
  ["var", "func", "if", "else", "while", "for", "return",
   "class", "new", "import", "try", "catch", "namespace",
   "true", "false", "null"]

/-- The `CompletionItem` built from one keyword (main.rs lines 62-66). -/
def keyword_item (k : String) : CompletionItem :=
  { label := k, kind := some CompletionItemKind.KEYWORD }

/-- `Backend::completion` (main.rs lines 52-76): keyword items first, then a
clone of the current `symbols` content. The request parameters are never
consulted. -/
def completion (symbols : List CompletionItem) : List CompletionItem :=
  keywords.map keyword_item ++ symbols

/-! ## Helper lemmas -/

/-- A successful `strFind` means the needle occurs at the returned index. -/
theorem strFind_isPrefixOf {cs m : List Char} {i : Nat}
    (h : strFind cs m = some i) : m.isPrefixOf (cs.drop i) = true := by
  induction cs generalizing i with
  | nil =>
    by_cases hm : m.isEmpty <;> simp [strFind, hm] at h
    subst h
    simp [List.isEmpty_iff] at hm
    simp [hm, List.isPrefixOf]
  | cons hd tl ih =>
    rw [strFind] at h
    by_cases hp : m.isPrefixOf (hd :: tl)
    · simp [hp] at h
      subst h
      simpa using hp
    · simp [hp] at h
      obtain ⟨j, hj, hij⟩ := h
      subst hij
      simpa using ih hj

/-- `charFind` past a block that does not contain the sought character. -/
theorem charFind_append {m t : List Char} {c : Char} (h : c ∉ m) :
    charFind (m ++ t) c = (charFind t c).map (· + m.length) := by
  induction m with
  | nil =>
    simp only [List.nil_append, List.length_nil]
    cases charFind t c <;> simp
  | cons hd tl ih =>
    simp only [List.mem_cons, not_or] at h
    rw [List.cons_append, charFind, if_neg (fun he => h.1 he.symm),
      ih h.2]
    cases charFind t c <;> simp
    omega

/-- The marker-then-delimiter scan of `line_num_of` coincides branchwise with
the spec-worded `enclosed_by` scan, for a marker that does not contain its own
closing delimiter. -/
theorem locator_branch_eq {cs m : List Char} {close : Char} {i : Nat}
    (hfind : strFind cs m = some i) (hc : close ∉ m) :
    (match charFind (cs.drop i) close with
     | some e =>
       match parseU32 ((cs.drop (i + m.length)).take (e - m.length)) with
       | some n => n - 1
       | none => 0
     | none => 0) =
    (match enclosed_by cs m close with
     | some t =>
       match parseU32 t with
       | some n => n - 1
       | none => 0
     | none => 0) := by
  have hp := strFind_isPrefixOf hfind
  rw [List.isPrefixOf_iff_prefix] at hp
  obtain ⟨t, ht⟩ := hp
  have hdrop : cs.drop (i + m.length) = t := by
    rw [← List.drop_drop, ← ht, List.drop_left]
  rw [enclosed_by, hfind, ← ht, charFind_append hc]
  simp only [hdrop]
  cases charFind t close with
  | none => simp
  | some j => simp

/-- `extract_list` concatenates, in order, the symbols of every element, and
propagates a panic of any element. -/
theorem extract_list_eq_mapM (l : List Value) :
    extract_list l = (l.mapM extract_symbols).map List.flatten := by
  induction l with
  | nil => rfl
  | cons e rest ih =>
    rw [extract_list, List.mapM_cons, ih]
    cases extract_symbols e with
    | none => rfl
    | some s =>
      cases h : rest.mapM extract_symbols with
      | none => simp [h]
      | some ls => simp [h]

/-- A node whose tag is none of the seven recognised commands produces no
symbols and does not recurse. -/
theorem analyze_unrecognized (t : Value) (args : List Value)
    (h : ((asStr t).getD "") ∉
      ["set", "function", "class", "namespace", "if", "while", "for_range"]) :
    analyze_instruction (t :: args) = some [] := by
  simp only [List.mem_cons, not_or] at h
  obtain ⟨h1, h2, h3, h4, h5, h6, h7, -⟩ := h
  have hc : ¬((asStr t).getD "" = "if" ∨ (asStr t).getD "" = "while" ∨
      (asStr t).getD "" = "for_range") := by
    rintro (hx | hx | hx)
    exacts [h5 hx, h6 hx, h7 hx]
  rw [analyze_instruction.eq_def]
  dsimp only
  rw [if_neg h1, if_neg h2, if_neg h3, if_neg h4, if_neg hc]

/-! ## Claim theorems -/

/-- C1: the claim states the symbol-extraction walk returns a symbol list on
every JSON value and never aborts or panics, explicitly including a tagged
node whose only element is a control tag. The code violates this: on the tree
`["if"]` the Rust slice expression `&arr[2..]` panics (slice start 2, length
1), modelled by `none` — the walk aborts instead of returning a list. -/
theorem c1_walker_aborts_on_bare_if :
    extract_symbols (Value.arr [Value.str "if"]) = none := rfl

/-- C2 (counterexample): a change notification whose `content_changes` list is
empty triggers no analysis pass at all, not exactly one as claimed — the
handler is silently skipped by `into_iter().next()` returning `None`. -/
theorem c2_empty_changes_no_pass :
    (did_change_texts []).length ≠ 1 := by decide

/-- C2 (amended): when `content_changes` is non-empty the handler triggers
exactly one analysis pass, on the full text carried by the first change. -/
theorem c2_nonempty_changes_one_pass (c : TextDocumentContentChangeEvent)
    (rest : List TextDocumentContentChangeEvent) :
    did_change_texts (c :: rest) = [c.text] ∧
    (did_change_texts (c :: rest)).length = 1 :=
  ⟨rfl, rfl⟩

/-- C3: a pass in which the external compiler fails leaves the symbol index
exactly unchanged and publishes exactly one diagnostic, the one the error
locator builds from the compiler error string. -/
theorem c3_compile_error_keeps_index (e : String)
    (loadRes : Value → Option String) (symbols : List CompletionItem) :
    validate_document (Except.error e) loadRes symbols =
      some (symbols, [parse_error_message e]) := rfl

/-- C4 (counterexample): a pass whose compile step succeeds with the tree
`["if"]` aborts inside the walker: the previous index survives untouched and
nothing is published — not the claimed unconditional wholesale replacement. -/
theorem c4_walk_abort_keeps_stale_index :
    validate_document (Except.ok (Value.arr [Value.str "if"]))
      (fun _v => none) [keyword_item "stale"] = none := rfl

/-- C4 (amended): in every pass where the compiler succeeds and the
symbol-extraction walk completes, the index is wholesale replaced with exactly
the extracted set, independent of its previous content; when the loader then
fails exactly one locator-built diagnostic is published, and when it succeeds
the empty list is published. -/
theorem c4_compile_ok_replaces_index (ast : Value)
    (loadRes : Value → Option String) (symbols found : List CompletionItem)
    (h : extract_symbols ast = some found) :
    validate_document (Except.ok ast) loadRes symbols =
      some (found,
        match loadRes ast with
        | some e => [parse_error_message e]
        | none => []) := by
  simp [validate_document, h]

/-- C4 witness: a concrete pass with a stale item in the index, a tree
declaring `x`, and a failing loader. -/
theorem c4_compile_ok_replaces_index_witness :
    validate_document
        (Except.ok (Value.arr
          [Value.str "set", Value.num 1, Value.str "x", Value.num 0]))
        (fun _v => some "type mismatch [Ligne 2]")
        [keyword_item "stale"] =
      some ([variable_item "x"],
        [parse_error_message "type mismatch [Ligne 2]"]) :=
  c4_compile_ok_replaces_index _ _ [keyword_item "stale"] [variable_item "x"] rfl

/-- C5: the error locator computes exactly the line the claim describes:
`locator_spec` is worded from the claim sentence (priority scan for
`"(Line "` closed by `')'`, else `"[Ligne "` closed by `']'`; enclosed text
parsed as an unsigned integer, minus one saturating at 0; 0 on no marker,
missing closing delimiter, or invalid integer), and the claimed examples
evaluate as stated. -/
theorem c5_error_locator_matches_spec :
    (∀ msg : String, line_num_of msg = locator_spec msg) ∧
    line_num_of "Unexpected token (Line 7)" = 6 ∧
    line_num_of "[Ligne 1] Error" = 0 ∧
    line_num_of "(Line 0)" = 0 ∧
    line_num_of "Aegis internal failure" = 0 := by
  refine ⟨fun msg => ?_, by decide, by decide, by decide, by decide⟩
  simp only [line_num_of, locator_spec]
  cases h1 : strFind msg.toList ("(Line ".toList) with
  | some i =>
    simp only [h1, Option.isSome_some, if_true]
    have h := @locator_branch_eq msg.toList ("(Line ".toList) ')' i h1
      (by decide : ')' ∉ "(Line ".toList)
    simpa using h
  | none =>
    simp only [h1, Option.isSome_none, Bool.false_eq_true, if_false]
    cases h2 : strFind msg.toList ("[Ligne ".toList) with
    | some i =>
      simp only [h2, Option.isSome_some, if_true]
      have h := @locator_branch_eq msg.toList ("[Ligne ".toList) ']' i h2
        (by decide : ']' ∉ "[Ligne ".toList)
      simpa using h
    | none =>
      simp [h2]

/-- C6: the four declaration tags: `set` emits one Variable named by the third
positional argument and nothing when that name is absent; `function` emits a
Function item carrying the `name($0)` call-skeleton snippet and then appends
the symbols of the body at the sixth position; `namespace` emits a Namespace
item and then appends the symbols of the body at the fourth position; `class`
emits a Class item and never recurses; output is pre-order, left to right,
without deduplication. -/
theorem c6_declaration_tags :
    (∀ (l : Value) (name : String) (rest : List Value),
      analyze_instruction (Value.str "set" :: l :: Value.str name :: rest) =
        some [variable_item name]) ∧
    (∀ args : List Value, name_arg args = none →
      analyze_instruction (Value.str "set" :: args) = some []) ∧
    (∀ name : String,
      (function_item name).insert_text = some (name ++ "($0)")) ∧
    (∀ (l p r b : Value) (rest : List Value) (name : String)
        (bs : List CompletionItem), extract_symbols b = some bs →
      analyze_instruction
          (Value.str "function" :: l :: Value.str name :: p :: r :: b :: rest) =
        some (function_item name :: bs)) ∧
    (∀ (l b : Value) (rest : List Value) (name : String)
        (bs : List CompletionItem), extract_symbols b = some bs →
      analyze_instruction
          (Value.str "namespace" :: l :: Value.str name :: b :: rest) =
        some (namespace_item name :: bs)) ∧
    (∀ (l : Value) (name : String) (rest : List Value),
      analyze_instruction (Value.str "class" :: l :: Value.str name :: rest) =
        some [class_item name]) ∧
    extract_symbols (Value.arr [Value.str "namespace", Value.num 1,
        Value.str "Shapes",
        Value.arr [Value.arr [Value.str "class", Value.num 2,
          Value.str "Circle"]]]) =
      some [namespace_item "Shapes", class_item "Circle"] ∧
    extract_symbols (Value.arr [
        Value.arr [Value.str "set", Value.num 1, Value.str "x", Value.num 0],
        Value.arr [Value.str "set", Value.num 2, Value.str "x", Value.num 0]]) =
      some [variable_item "x", variable_item "x"] := by
  refine ⟨fun l name rest => rfl, fun args h => ?_, fun name => rfl,
    fun l p r b rest name bs h => ?_, fun l b rest name bs h => ?_,
    fun l name rest => rfl, rfl, rfl⟩
  · rw [show analyze_instruction (Value.str "set" :: args) =
        some (set_items args) from rfl]
    simp [set_items, h]
  · simp [analyze_instruction, function_items, name_arg, asStr, h]
  · simp [analyze_instruction, namespace_items, name_arg, asStr, h]

/-- C6 witness: the hypothesis-carrying parts of `c6_declaration_tags` applied
at concrete instances: a name-less `set`, the spec example function with body
declaring `y`, and the spec example namespace containing class `Circle`. -/
theorem c6_declaration_tags_witness :
    analyze_instruction [Value.str "set", Value.num 3] = some [] ∧
    analyze_instruction [Value.str "function", Value.num 2, Value.str "add",
        Value.arr [], Value.str "int",
        Value.arr [Value.str "set", Value.num 3, Value.str "y", Value.num 0]] =
      some [function_item "add", variable_item "y"] ∧
    analyze_instruction [Value.str "namespace", Value.num 1, Value.str "Shapes",
        Value.arr [Value.arr [Value.str "class", Value.num 2,
          Value.str "Circle"]]] =
      some [namespace_item "Shapes", class_item "Circle"] :=
  ⟨c6_declaration_tags.2.1 [Value.num 3] rfl,
   c6_declaration_tags.2.2.2.1 (Value.num 2) (Value.arr []) (Value.str "int")
     (Value.arr [Value.str "set", Value.num 3, Value.str "y", Value.num 0]) []
     "add" [variable_item "y"] rfl,
   c6_declaration_tags.2.2.2.2.1 (Value.num 1)
     (Value.arr [Value.arr [Value.str "class", Value.num 2,
       Value.str "Circle"]]) [] "Shapes" [class_item "Circle"] rfl⟩

/-- C7 (counterexample): on the node `["for_range"]` — a control tag with no
arguments at all — the walker does not return the empty symbol list the claim
requires: the `&arr[2..]` slice panics and the walk aborts (`none`). -/
theorem c7_bare_for_range_aborts :
    analyze_instruction [Value.str "for_range"] = none := rfl

/-- C7 (amended): on every `if`, `while` or `for_range` node carrying at least
one argument besides the tag, the walker emits no symbol of its own and
concatenates, in order, the symbols extracted from every argument from the
third position onward; a node consisting of the bare control tag aborts
instead. Every unrecognised tag yields no symbols and no recursion. -/
theorem c7_control_tags_recursion :
    (∀ (x : Value) (rest : List Value),
      analyze_instruction (Value.str "if" :: x :: rest) =
          (rest.mapM extract_symbols).map List.flatten ∧
      analyze_instruction (Value.str "while" :: x :: rest) =
          (rest.mapM extract_symbols).map List.flatten ∧
      analyze_instruction (Value.str "for_range" :: x :: rest) =
          (rest.mapM extract_symbols).map List.flatten) ∧
    (∀ (t : Value) (args : List Value),
      ((asStr t).getD "") ∉
        ["set", "function", "class", "namespace", "if", "while", "for_range"] →
      analyze_instruction (t :: args) = some []) := by
  refine ⟨fun x rest => ?_, analyze_unrecognized⟩
  refine ⟨?_, ?_, ?_⟩
  · rw [show analyze_instruction (Value.str "if" :: x :: rest) =
        extract_list rest from rfl, extract_list_eq_mapM]
  · rw [show analyze_instruction (Value.str "while" :: x :: rest) =
        extract_list rest from rfl, extract_list_eq_mapM]
  · rw [show analyze_instruction (Value.str "for_range" :: x :: rest) =
        extract_list rest from rfl, extract_list_eq_mapM]

/-- C7 witness: an unrecognised tag produces no symbols and does not recurse —
its argument here is a tree on which recursion would abort, so the `some []`
result also witnesses that no recursion took place. -/
theorem c7_control_tags_recursion_witness :
    analyze_instruction [Value.str "unknown_tag", Value.num 1,
        Value.arr [Value.str "if"]] = some [] :=
  c7_control_tags_recursion.2 (Value.str "unknown_tag")
    [Value.num 1, Value.arr [Value.str "if"]] (by decide)

/-- C8 (counterexample): a pass whose compile step succeeds with the tree
`["while"]` aborts inside the walker and publishes nothing — not exactly one
publish per pass as claimed. -/
theorem c8_walk_abort_publishes_nothing :
    validate_document (Except.ok (Value.arr [Value.str "while"]))
      (fun _v => none) [] = none := rfl

/-- C8 (amended): every pass that completes (the walk does not abort) performs
exactly one publish whose list holds at most one diagnostic, every published
diagnostic has Error severity, and the published list is empty exactly when
both the compile and the validation step succeed. -/
theorem c8_publish_at_most_one (compileRes : Except String Value)
    (loadRes : Value → Option String) (symbols : List CompletionItem)
    (out : List CompletionItem × List Diagnostic)
    (h : validate_document compileRes loadRes symbols = some out) :
    out.2.length ≤ 1 ∧
    (∀ d ∈ out.2, d.severity = some DiagnosticSeverity.ERROR) ∧
    (out.2 = [] ↔ ∃ ast, compileRes = Except.ok ast ∧ loadRes ast = none) := by
  cases compileRes with
  | error e =>
    rw [validate_document] at h
    injection h with h
    subst h
    refine ⟨by simp, by simp [parse_error_message], by simp⟩
  | ok ast =>
    rw [validate_document] at h
    cases hx : extract_symbols ast with
    | none => rw [hx] at h; exact absurd h (by simp)
    | some found =>
      rw [hx] at h
      cases hl : loadRes ast with
      | none =>
        rw [hl] at h
        injection h with h
        subst h
        exact ⟨by simp, by simp, by simp [hl]⟩
      | some e =>
        rw [hl] at h
        injection h with h
        subst h
        refine ⟨by simp, by simp [parse_error_message], ?_⟩
        simp only [List.cons_ne_self]
        constructor
        · intro hfalse
          exact absurd hfalse (by simp)
        · rintro ⟨ast2, hok, hnone⟩
          injection hok with hok
          subst hok
          rw [hl] at hnone
          exact absurd hnone (by simp)

/-- C8 witness: the shape facts of `c8_publish_at_most_one` at a concrete
completing pass: empty program, loader succeeding, empty publish. -/
theorem c8_publish_at_most_one_witness :
    ((([], []) : List CompletionItem × List Diagnostic)).2.length ≤ 1 ∧
    (∀ d ∈ ((([], []) : List CompletionItem × List Diagnostic)).2,
      d.severity = some DiagnosticSeverity.ERROR) ∧
    (((([], []) : List CompletionItem × List Diagnostic)).2 = [] ↔
      ∃ ast, (Except.ok (Value.arr []) : Except String Value) = Except.ok ast ∧
        (fun (_v : Value) => (none : Option String)) ast = none) :=
  c8_publish_at_most_one (Except.ok (Value.arr [])) (fun _v => none) []
    ([], []) rfl

/-- C9: a completion response is always the sixteen fixed keywords, as keyword
items, followed by the current symbol-index snapshot — no request data is
consulted, nothing is deduplicated, and the length is exactly 16 plus the
index size. -/
theorem c9_completion_keywords_first (symbols : List CompletionItem) :
    completion symbols =
      (["var", "func", "if", "else", "while", "for", "return",
        "class", "new", "import", "try", "catch", "namespace",
        "true", "false", "null"].map keyword_item) ++ symbols ∧
    (completion symbols).length = 16 + symbols.length := by
  refine ⟨rfl, ?_⟩
  simp [completion, keywords]
  omega

/-- C10: the diagnostic the error locator builds carries the input string
verbatim as message, the fixed source label `"Aegis Compiler"`, Error
severity, and a range from character 0 to character 100 on the computed line,
with equal start and end lines. -/
theorem c10_diagnostic_construction (msg : String) :
    parse_error_message msg =
      { range := { start := { line := line_num_of msg, character := 0 },
                   endPos := { line := line_num_of msg, character := 100 } },
        severity := some DiagnosticSeverity.ERROR,
        source := some "Aegis Compiler",
        message := msg } := rfl

end Aegis
